import Mathlib

/-!
Verification of the AIExtractor frontend (src/frontend/src/App.js).

The file embeds the component's pure logic — input validation, job-request
construction, the statistics computed from the parsed spreadsheet, the
preview rows, the file-change reset and the download filename — as Lean
definitions, and proves the specified properties about them.

JS string builtins used by App.js (`toLowerCase`, `endsWith`, `trim`,
`split(',')`, `replace`, `parseInt`, `isNaN`) are modelled at character-list
level so that every definition is executable and kernel-reducible.
-/

/-- ASCII lowercase conversion of one character: the effect of JS
`String.prototype.toLowerCase` on the ASCII range (the suffix check in
`validateInputs` only compares against the ASCII literal `".pdf"`). -/
def asciiLower (c : Char) : Char :=
  if 'A' ≤ c ∧ c ≤ 'Z' then Char.ofNat (c.toNat + 32) else c

/-- Model of JS `String.prototype.toLowerCase`. -/
def jsToLowerCase (s : String) : String := String.mk (s.data.map asciiLower)

/-- Model of JS `String.prototype.endsWith`. -/
def jsEndsWith (s suf : String) : Bool := List.isSuffixOf suf.data s.data

/-- The whitespace characters recognised by JS `trim`, `parseInt` and
`Number` that can occur in form input. -/
def isJsWhitespace (c : Char) : Bool :=
  c = ' ' || c = '\t' || c = '\n' || c = '\r' || c = '\x0b' || c = '\x0c'

/-- Strip leading and trailing JS whitespace from a character list. -/
def trimChars (l : List Char) : List Char :=
  ((l.dropWhile isJsWhitespace).reverse.dropWhile isJsWhitespace).reverse

/-- Model of JS `String.prototype.trim`. -/
def jsTrim (s : String) : String := String.mk (trimChars s.data)

/-- Model of JS `String.prototype.split(',')` at character level: splitting
the empty string yields one empty group, as in JS. -/
def splitComma : List Char → List (List Char)
  | [] => [[]]
  | c :: rest =>
    if c = ',' then [] :: splitComma rest
    else
      match splitComma rest with
      | [] => [c :: []]
      | g :: gs => (c :: g) :: gs

/-- Value of a block of decimal digit characters. -/
def digitsVal (ds : List Char) : Nat :=
  ds.foldl (fun a c => 10 * a + (c.toNat - Char.toNat '0')) 0

/-- Drop one optional leading sign character. -/
def stripSign : List Char → List Char
  | '+' :: rest => rest
  | '-' :: rest => rest
  | l => l

/-- Model of JS `parseInt` with no radix argument on character lists: skip
leading whitespace, read one optional sign and then leading decimal digits;
`none` models `NaN`. The `0x` hexadecimal form cannot occur in the number
input this program reads and is not modelled. -/
def jsParseIntChars (l : List Char) : Option Int :=
  let l1 := l.dropWhile isJsWhitespace
  let sign : Int := match l1 with
    | '-' :: _ => -1
    | _ => 1
  let ds := (stripSign l1).takeWhile Char.isDigit
  if ds.isEmpty then none else some (sign * (digitsVal ds : Int))

/-- Model of JS `parseInt` on strings. -/
def jsParseInt (s : String) : Option Int := jsParseIntChars s.data

/-- Exponent tail of a decimal numeric literal: optional sign, then one or
more digits and nothing else. -/
def checkExpTail (l : List Char) : Bool :=
  let l1 := stripSign l
  !l1.isEmpty && l1.all Char.isDigit

/-- Optional exponent part of a decimal numeric literal. -/
def checkExponentPart : List Char → Bool
  | [] => true
  | 'e' :: rest => checkExpTail rest
  | 'E' :: rest => checkExpTail rest
  | _ => false

/-- Body of a decimal numeric literal after the optional sign:
`digits [ "." digits* ] | "." digits+`, followed by an optional exponent. -/
def isDecimalBody (l : List Char) : Bool :=
  let intPart := l.takeWhile Char.isDigit
  let rest := l.dropWhile Char.isDigit
  if intPart.isEmpty then
    match rest with
    | '.' :: rest2 =>
      let frac := rest2.takeWhile Char.isDigit
      !frac.isEmpty && checkExponentPart (rest2.dropWhile Char.isDigit)
    | _ => false
  else
    match rest with
    | '.' :: rest2 => checkExponentPart (rest2.dropWhile Char.isDigit)
    | _ => checkExponentPart rest

/-- Model of JS `isNaN(s)` for strings a number input can hold: `Number(s)`
is `NaN` exactly when the trimmed string is non-empty and is not a decimal
numeric literal. (`Infinity` and radix-prefixed forms cannot occur in the
number input this program reads and are not modelled.) -/
def jsIsNaN (s : String) : Bool :=
  match trimChars s.data with
  | [] => false
  | l => !(isDecimalBody (stripSign l))

/-- Model of JS `String.prototype.replace` with a string pattern: only the
first occurrence is replaced, case-sensitively. -/
def replaceFirstChars (pat rep : List Char) : List Char → List Char
  | [] => if pat.isEmpty then rep else []
  | c :: rest =>
    if pat.isPrefixOf (c :: rest) then rep ++ (c :: rest).drop pat.length
    else c :: replaceFirstChars pat rep rest

/-- Model of JS `s.replace(pat, rep)` for a string pattern `pat`. -/
def jsReplaceFirst (s pat rep : String) : String :=
  String.mk (replaceFirstChars pat.data rep.data s.data)

/-- The selected file as App.js sees it: only its name is inspected. -/
structure FileInfo where
  name : String
  deriving DecidableEq, Repr

/-- Raw bytes of the spreadsheet blob returned by the backend. -/
abbrev Blob := List Nat

/-- The statistics object built in `handleSubmit` (App.js lines 132-136). -/
structure ExtractionStats where
  totalRows : Nat
  totalColumns : Nat
  hasData : Bool
  deriving DecidableEq, Repr

/-- The React state of the App component (App.js lines 6-16), in source
order. `downloadLink` and the object URL are modelled as plain strings. -/
structure AppState where
  pdfFile : Option FileInfo
  columns : String
  notes : String
  isLoading : Bool
  downloadLink : String
  previewData : List (List String)
  extractedBlob : Option Blob
  originalFilename : String
  extractionStats : Option ExtractionStats
  error : String
  samplePages : String
  deriving DecidableEq, Repr

/-- Model of `handleFileChange` (App.js lines 21-31); `file` is the first
selected file, or `none` when the selection was cleared. -/
def handleFileChange (st : AppState) (file : Option FileInfo) : AppState :=
  { st with
    pdfFile := file
    originalFilename := match file with | some f => f.name | none => ""
    error := ""
    downloadLink := ""
    previewData := []
    extractedBlob := none
    extractionStats := none }

/-- The comma-separated entries of the columns field after JS `split(',')`
and per-entry `trim` (App.js lines 49 and 81, before the `filter`). -/
def trimmedEntries (s : String) : List String :=
  (splitComma s.data).map (fun l => String.mk (trimChars l))

/-- Model of `columns.split(',').map(c => c.trim()).filter(c => c)`
(App.js lines 49 and 81): the column list carried by the job request. -/
def parseColumnList (s : String) : List String :=
  (trimmedEntries s).filter (fun c => c != "")

/-- Model of `parseInt(s) <= 0` in JS: false when `parseInt` yields `NaN`
(`NaN <= 0` is false). -/
def parseIntNonpositive (s : String) : Bool :=
  match jsParseInt s with
  | some n => decide (n ≤ 0)
  | none => false

/-- Model of `parseInt(s) > 0` in JS: false when `parseInt` yields `NaN`. -/
def parseIntPositive (s : String) : Bool :=
  match jsParseInt s with
  | some n => decide (0 < n)
  | none => false

/-- Result of `validateInputs` (App.js lines 33-61): `Except.error msg`
models `setError(msg); return false`, `Except.ok ()` models `return true`.
The checks run in source order and stop at the first failure. -/
def validateInputs (st : AppState) : Except String Unit :=
  match st.pdfFile with
  | none => .error "Please select a PDF file"
  | some f =>
    if jsEndsWith (jsToLowerCase f.name) ".pdf" = false then
      .error "Please select a valid PDF file"
    else if jsTrim st.columns = "" then
      .error "Please specify at least one column"
    else if parseColumnList st.columns = [] then
      .error "Please specify valid column names"
    else if st.samplePages ≠ "" ∧ (jsIsNaN st.samplePages || parseIntNonpositive st.samplePages) = true then
      .error "Sample pages must be a positive number"
    else
      .ok ()

instance : DecidableEq (Except String Unit) := fun a b =>
  match a, b with
  | .ok (), .ok () => isTrue rfl
  | .error e1, .error e2 =>
    if h : e1 = e2 then isTrue (by rw [h]) else isFalse (fun he => by cases he; exact h rfl)
  | .ok (), .error _ => isFalse (fun he => by cases he)
  | .error _, .ok () => isFalse (fun he => by cases he)

/-- The multipart form fields `handleSubmit` appends (App.js lines 77-87). -/
structure JobRequest where
  fileName : String
  columns : List String
  extra_instructions : String
  sample_pages : Option Int
  deriving DecidableEq, Repr

/-- The request `handleSubmit` posts when validation passes (App.js lines
63-87); `none` models the early return taken when `validateInputs` fails. -/
def buildRequest (st : AppState) : Option JobRequest :=
  match validateInputs st, st.pdfFile with
  | .ok _, some f =>
    some
      { fileName := f.name
        columns := parseColumnList st.columns
        extra_instructions := st.notes
        sample_pages :=
          if st.samplePages ≠ "" ∧ jsIsNaN st.samplePages = false ∧ parseIntPositive st.samplePages = true then
            jsParseInt st.samplePages
          else none }
  | _, _ => none

/-- The statistics computed from the parsed first sheet (App.js lines
131-136): `json` is the result of `sheet_to_json(sheet, { header: 1 })`. -/
def computeStats (json : List (List String)) : ExtractionStats :=
  { totalRows := if json.length > 0 then json.length - 1 else 0
    totalColumns := if json.length > 0 then (json.headD []).length else 0
    hasData := decide (json.length > 1) }

/-- JS falsy-or on strings: `a || b` where the empty string is falsy. -/
def jsOrElse (a b : String) : String := if a = "" then b else a

/-- The backend URL constant (App.js line 19). -/
def BACKEND_URL : String := "https://aiextractorautomationpipeline.onrender.com"

/-- The axios failure shapes distinguished by the catch block of
`handleSubmit` (App.js lines 147-184). Optional fields are `none` when the
corresponding JS property is absent. -/
inductive AxiosFailure where
  | blobJson (err msg : Option String) : AxiosFailure
  | blobNotJson (status : Nat) (statusText : String) : AxiosFailure
  | blobUnreadable (status : Nat) (statusText : String) : AxiosFailure
  | plainData (dataError : Option String) (statusText : String) : AxiosFailure
  | noResponse : AxiosFailure
  | requestFailed (message : String) : AxiosFailure
  deriving DecidableEq, Repr

/-- The single error message the catch block stores with `setError`
(App.js lines 159-183). -/
def classifyError : AxiosFailure → String
  | .blobJson err msg =>
    "Extraction failed: " ++ jsOrElse (err.getD "") (jsOrElse (msg.getD "") "Unknown error")
  | .blobNotJson status statusText =>
    "Extraction failed: " ++ (toString status ++ (" " ++ statusText))
  | .blobUnreadable status statusText =>
    "Extraction failed: " ++ (toString status ++ (" " ++ statusText))
  | .plainData dataError statusText =>
    "Extraction failed: " ++ jsOrElse (dataError.getD "") (jsOrElse statusText "Server error")
  | .noResponse =>
    "No response from server. Please check if the backend is running at " ++ BACKEND_URL
  | .requestFailed message =>
    "Request failed: " ++ message

/-- Outcome of the axios POST in `handleSubmit`. -/
inductive ServerResponse where
  | ok (blob : Blob) : ServerResponse
  | failure (f : AxiosFailure) : ServerResponse

/-- Model of `handleSubmit` (App.js lines 63-187). `parse` is the external
XLSX pipeline of lines 124-127 (`XLSX.read` plus `sheet_to_json` on the
first sheet); `parse blob = none` models the parse exception caught at line
140. The result is the component state once the submission and the
`FileReader.onload` callback have settled; the object URL of line 117 is
modelled by an opaque non-empty marker string. -/
def handleSubmit (parse : Blob → Option (List (List String)))
    (st : AppState) (resp : ServerResponse) : AppState :=
  match validateInputs st with
  | .error e => { st with error := e }
  | .ok _ =>
    match resp with
    | .failure f =>
      { st with isLoading := false, downloadLink := "", previewData := [], extractedBlob := none, extractionStats := none, error := classifyError f }
    | .ok blob =>
      match parse blob with
      | none =>
        { st with isLoading := false, downloadLink := "blob:objecturl", previewData := [], extractedBlob := some blob, extractionStats := none, error := "Could not parse extracted data for preview" }
      | some json =>
        { st with isLoading := false, downloadLink := "blob:objecturl", previewData := json, extractedBlob := some blob, extractionStats := some (computeStats json), error := "" }

/-- The preview rows `renderPreviewTable` displays (App.js lines 212-216):
nothing when there is no preview data, else the first 20 rows of
`previewData`, the header row included. -/
def previewTableRows (previewData : List (List String)) : List (List String) :=
  if previewData = [] then [] else previewData.take 20

/-- The non-header rows of the preview body (App.js line 260:
`previewRows.slice(1)`). -/
def previewBodyRows (previewData : List (List String)) : List (List String) :=
  (previewTableRows previewData).drop 1

/-- The filename `handleDownload` assigns to the anchor (App.js line 194). -/
def downloadName (originalFilename : String) : String :=
  "extracted_" ++ jsReplaceFirst originalFilename ".pdf" ".xlsx"

/-- Modelled from the spec: the backend Artifact Builder is not under
`src/`; per spec section 4.5 the artifact's single sheet has the schema's
column names in order as row 0, followed by the merged rows in order. -/
def buildArtifactSheet (schemaColumns : List String) (rows : List (List String)) :
    List (List String) :=
  schemaColumns :: rows

/-- The schema normalization the spec describes in section 4.2: collapse
duplicate names by exact match, keeping first-seen order; `seen` holds the
names already kept. -/
def collapseFirstSeenAux (seen : List String) : List String → List String
  | [] => []
  | c :: rest =>
    if c ∈ seen then collapseFirstSeenAux seen rest
    else c :: collapseFirstSeenAux (c :: seen) rest

/-- The column list the specification describes: trimmed entries, empties
removed, duplicates collapsed to first-seen order. -/
def specCollapsedColumns (s : String) : List String :=
  collapseFirstSeenAux [] (parseColumnList s)

/-- A component state with the given file selection, columns field, notes
and sample-pages field, all result state empty: the state right after
`handleFileChange` on a fresh component with those form inputs. -/
def mkState (file : Option FileInfo) (cols notes sample : String) : AppState :=
  { pdfFile := file, columns := cols, notes := notes, isLoading := false, downloadLink := "", previewData := [], extractedBlob := none, originalFilename := (match file with | some f => f.name | none => ""), extractionStats := none, error := "", samplePages := sample }

/-- The first two checks of `validateInputs` (App.js lines 34-42): a file
is selected and its lowercased name ends with `".pdf"`. -/
def fileOk (st : AppState) : Bool :=
  match st.pdfFile with
  | some f => jsEndsWith (jsToLowerCase f.name) ".pdf"
  | none => false

/-- A string whose length is non-zero is not the empty string. -/
theorem ne_empty_of_len (p : String) (h : p.length ≠ 0) : p ≠ "" :=
  fun he => h (by rw [he]; rfl)

/-- Appending to a string of non-zero length keeps the length non-zero. -/
theorem append_len_ne (p q : String) (h : p.length ≠ 0) : (p ++ q).length ≠ 0 := by
  rw [String.length_append]; omega

/-- A non-empty string followed by anything is non-empty. -/
theorem append_ne_empty (p q : String) (h : p.length ≠ 0) : p ++ q ≠ "" :=
  ne_empty_of_len _ (append_len_ne p q h)

/-- Every message the catch block of `handleSubmit` can store is non-empty. -/
theorem classifyError_ne_empty (f : AxiosFailure) : classifyError f ≠ "" := by
  cases f <;> exact append_ne_empty _ _ (by decide)

/-- If trimming removes every character, every character was whitespace. -/
theorem all_ws_of_trim_nil (l : List Char) (h : trimChars l = []) :
    ∀ c ∈ l, isJsWhitespace c = true := by
  unfold trimChars at h
  rw [List.reverse_eq_nil_iff, List.dropWhile_eq_nil_iff] at h
  intro c hc
  have hsplit : c ∈ l.takeWhile isJsWhitespace ++ l.dropWhile isJsWhitespace := by
    rw [List.takeWhile_append_dropWhile]; exact hc
  rcases List.mem_append.1 hsplit with h1 | h2
  · exact List.mem_takeWhile_imp h1
  · exact h c (List.mem_reverse.2 h2)

/-- Splitting a comma-free character list yields one group: the list itself. -/
theorem splitComma_eq_single (l : List Char) (h : ∀ c ∈ l, c ≠ ',') :
    splitComma l = [l] := by
  induction l with
  | nil => rfl
  | cons c rest ih =>
    have hc : ¬ c = ',' := h c (by simp)
    have hr := ih (fun x hx => h x (by simp [hx]))
    simp [splitComma, hc, hr]

/-- If the whole columns field trims to nothing, the parsed column list is
empty: an all-whitespace field contains no comma, so it splits into a single
entry that trims to the empty string and is filtered out. -/
theorem parseColumnList_nil_of_trim_nil (s : String) (h : trimChars s.data = []) :
    parseColumnList s = [] := by
  have hws := all_ws_of_trim_nil s.data h
  have hnc : ∀ c ∈ s.data, c ≠ ',' := by
    intro c hc he
    have hw := hws c hc
    rw [he] at hw
    simp [isJsWhitespace] at hw
  rw [parseColumnList, trimmedEntries, splitComma_eq_single s.data hnc]
  simp [h]

/-- The columns field trims to the empty string exactly when trimming its
characters leaves nothing. -/
theorem jsTrim_eq_empty_iff (s : String) : jsTrim s = "" ↔ trimChars s.data = [] := by
  unfold jsTrim
  constructor
  · intro h; exact congrArg String.data h
  · intro h; rw [h]

/-- The `parseInt` model yields `NaN` on the empty string. -/
theorem jsParseInt_empty : jsParseInt "" = none := rfl

/-- A passing file check means: a file is selected and its lowercased name
ends with `".pdf"`. -/
theorem fileOk_spec (st : AppState) (h : fileOk st = true) :
    ∃ f, st.pdfFile = some f ∧ jsEndsWith (jsToLowerCase f.name) ".pdf" = true := by
  unfold fileOk at h
  cases hp : st.pdfFile with
  | none => rw [hp] at h; cases h
  | some f => rw [hp] at h; exact ⟨f, rfl, h⟩

/-- With the file checks passing, `validateInputs` reduces to the column and
sample-pages checks. -/
theorem validateInputs_eq (st : AppState) (f : FileInfo)
    (hp : st.pdfFile = some f) (he : jsEndsWith (jsToLowerCase f.name) ".pdf" = true) :
    validateInputs st =
      (if jsTrim st.columns = "" then .error "Please specify at least one column"
       else if parseColumnList st.columns = [] then .error "Please specify valid column names"
       else if st.samplePages ≠ "" ∧ (jsIsNaN st.samplePages || parseIntNonpositive st.samplePages) = true then .error "Sample pages must be a positive number"
       else .ok ()) := by
  unfold validateInputs
  rw [hp]
  dsimp only
  rw [he]
  simp

/-- A failed validation makes `handleSubmit` return before posting. -/
theorem buildRequest_error (st : AppState) (e : String)
    (h : validateInputs st = .error e) : buildRequest st = none := by
  unfold buildRequest; rw [h]

/-- A passing validation posts the form fields of App.js lines 77-87. -/
theorem buildRequest_ok (st : AppState) (f : FileInfo)
    (h : validateInputs st = .ok ()) (hp : st.pdfFile = some f) :
    buildRequest st = some
      { fileName := f.name, columns := parseColumnList st.columns, extra_instructions := st.notes, sample_pages := if st.samplePages ≠ "" ∧ jsIsNaN st.samplePages = false ∧ parseIntPositive st.samplePages = true then jsParseInt st.samplePages else none } := by
  unfold buildRequest; rw [h, hp]

/-- The preview always shows the first 20 rows of the preview data. -/
theorem previewTableRows_eq_take (l : List (List String)) :
    previewTableRows l = l.take 20 := by
  unfold previewTableRows
  split
  · simp [*]
  · rfl

/-- C1: for every parsed extraction result, `totalRows` is the number of
rows of the first sheet minus the header row when the sheet is non-empty
and 0 when it has no rows, and `hasData` holds exactly when
`totalRows > 0`. -/
theorem C1_totalRows_hasData (json : List (List String)) :
    ((computeStats json).totalRows = if json = [] then 0 else json.length - 1) ∧
    ((computeStats json).hasData = true ↔ 0 < (computeStats json).totalRows) := by
  unfold computeStats
  cases json with
  | nil => simp
  | cons r rows =>
    simp only [List.length_cons]
    constructor
    · simp
    · simp only [decide_eq_true_eq]
      constructor
      · intro h; simp; omega
      · intro h; simp at h ⊢; omega

/-- C2: for the artifact sheet the backend builds (modelled from the spec:
header row is the schema), the computed `totalColumns` equals the number of
column names the caller's columns field supplies to the job request. -/
theorem C2_totalColumns_schema (colsField : String) (rows : List (List String)) :
    (computeStats (buildArtifactSheet (parseColumnList colsField) rows)).totalColumns =
      (parseColumnList colsField).length := by
  unfold computeStats buildArtifactSheet
  simp

/-- C3 counterexample: the column list sent for the input `"a,a"` keeps the
duplicate name, so it differs from the collapsed ordered set the claim
describes. -/
theorem C3_counterexample_duplicates :
    parseColumnList "a,a" = ["a", "a"] ∧
    specCollapsedColumns "a,a" = ["a"] ∧
    parseColumnList "a,a" ≠ specCollapsedColumns "a,a" := by
  refine ⟨by decide, by decide, by decide⟩

/-- C3 (amended): the column list sent with every job request is exactly
the trimmed comma-separated entries with the empty entries removed, kept in
the caller's input order (a subsequence of the trimmed entries); duplicate
names are kept, not collapsed: every non-empty name occurs in the sent list
exactly as many times as it occurs among the trimmed entries, while the
empty name never occurs. -/
theorem C3_columns_order (input : String) :
    parseColumnList input = (trimmedEntries input).filter (fun c => c != "") ∧
    List.Sublist (parseColumnList input) (trimmedEntries input) ∧
    (∀ c : String, (parseColumnList input).count c =
      if c = "" then 0 else (trimmedEntries input).count c) := by
  refine ⟨rfl, List.filter_sublist _, ?_⟩
  intro c
  by_cases hc : c = ""
  · rw [if_pos hc]
    rw [parseColumnList, List.count_eq_zero]
    intro hmem
    have h2 := (List.mem_filter.1 hmem).2
    rw [hc] at h2
    cases h2
  · rw [if_neg hc]
    rw [parseColumnList]
    have hp : (fun cc : String => cc != "") c = true := by
      simpa using hc
    simp [List.count_filter, hp]

/-- C9: every file-selection change resets the download link, preview rows,
stored blob and statistics, and clears the error message. -/
theorem C9_file_change_resets (st : AppState) (file : Option FileInfo) :
    (handleFileChange st file).downloadLink = "" ∧
    (handleFileChange st file).previewData = [] ∧
    (handleFileChange st file).extractedBlob = none ∧
    (handleFileChange st file).extractionStats = none ∧
    (handleFileChange st file).error = "" :=
  ⟨rfl, rfl, rfl, rfl, rfl⟩

/-- C10: the download filename is `"extracted_"` followed by the original
filename with only the first occurrence of the lowercase literal `".pdf"`
replaced by `".xlsx"`; the accepted input `"a.PDF"` (validation passes on
it) therefore downloads under a name that does not end in `".xlsx"`, and
`"a.pdf.pdf"` has only its first `".pdf"` replaced. -/
theorem C10_download_filename :
    (∀ name : String, downloadName name = "extracted_" ++ jsReplaceFirst name ".pdf" ".xlsx") ∧
    validateInputs (mkState (some ⟨"a.PDF"⟩) "a" "" "") = .ok () ∧
    downloadName "a.PDF" = "extracted_a.PDF" ∧
    jsEndsWith (downloadName "a.PDF") ".xlsx" = false ∧
    downloadName "a.pdf.pdf" = "extracted_a.xlsx.pdf" :=
  ⟨fun _ => rfl, by decide, by decide, by decide, by decide⟩

/-- C4: with a valid PDF file selected, `validateInputs` reports a column
error exactly when the comma-separated columns field, trimmed entrywise
with empty entries removed, yields the empty list; in that case no job
request is issued. -/
theorem C4_empty_schema_gate (st : AppState) (hf : fileOk st = true) :
    ((validateInputs st = .error "Please specify at least one column" ∨
      validateInputs st = .error "Please specify valid column names") ↔
      parseColumnList st.columns = []) ∧
    (parseColumnList st.columns = [] → buildRequest st = none) := by
  obtain ⟨f, hp, he⟩ := fileOk_spec st hf
  have hv := validateInputs_eq st f hp he
  by_cases ht : jsTrim st.columns = ""
  · have hnil := parseColumnList_nil_of_trim_nil st.columns ((jsTrim_eq_empty_iff _).1 ht)
    have hv1 : validateInputs st = .error "Please specify at least one column" := by
      rw [hv, if_pos ht]
    exact ⟨⟨fun _ => hnil, fun _ => Or.inl hv1⟩, fun _ => buildRequest_error st _ hv1⟩
  · by_cases hn : parseColumnList st.columns = []
    · have hv2 : validateInputs st = .error "Please specify valid column names" := by
        rw [hv, if_neg ht, if_pos hn]
      exact ⟨⟨fun _ => hn, fun _ => Or.inr hv2⟩, fun _ => buildRequest_error st _ hv2⟩
    · constructor
      · constructor
        · intro hcol
          rcases hcol with h1 | h2
          · rw [hv, if_neg ht, if_neg hn] at h1
            by_cases hs : st.samplePages ≠ "" ∧ (jsIsNaN st.samplePages || parseIntNonpositive st.samplePages) = true
            · rw [if_pos hs] at h1
              exact absurd (Except.error.inj h1) (by decide)
            · rw [if_neg hs] at h1
              cases h1
          · rw [hv, if_neg ht, if_neg hn] at h2
            by_cases hs : st.samplePages ≠ "" ∧ (jsIsNaN st.samplePages || parseIntNonpositive st.samplePages) = true
            · rw [if_pos hs] at h2
              exact absurd (Except.error.inj h2) (by decide)
            · rw [if_neg hs] at h2
              cases h2
        · intro hn0
          exact absurd hn0 hn
      · intro hn0
        exact absurd hn0 hn

/-- C4 witness: a state with a valid file and the columns field `" , "`
(which trims to nothing entrywise) gets the column error and no request. -/
theorem C4_empty_schema_gate_witness :
    buildRequest (mkState (some ⟨"a.pdf"⟩) " , " "" "") = none :=
  (C4_empty_schema_gate (mkState (some ⟨"a.pdf"⟩) " , " "" "") (by decide)).2 (by decide)

/-- C5: with a valid file and a non-empty column list, the sample-pages
field is gated as follows: a supplied value that is not a number, or whose
parsed integer is non-positive, fails validation and no request is sent; a
numeric value whose parsed integer is positive passes validation and that
integer is carried by the request; an empty field passes validation and
the request carries no sample limit. -/
theorem C5_sample_pages_gate (st : AppState) (hf : fileOk st = true)
    (hc : parseColumnList st.columns ≠ []) :
    (st.samplePages ≠ "" → jsIsNaN st.samplePages = true →
      validateInputs st = .error "Sample pages must be a positive number" ∧
      buildRequest st = none) ∧
    (∀ n : Int, jsParseInt st.samplePages = some n → n ≤ 0 →
      validateInputs st = .error "Sample pages must be a positive number" ∧
      buildRequest st = none) ∧
    (∀ n : Int, jsParseInt st.samplePages = some n → 0 < n →
      jsIsNaN st.samplePages = false →
      validateInputs st = .ok () ∧
      ∃ req, buildRequest st = some req ∧ req.sample_pages = some n) ∧
    (st.samplePages = "" →
      validateInputs st = .ok () ∧
      ∃ req, buildRequest st = some req ∧ req.sample_pages = none) := by
  obtain ⟨f, hp, he⟩ := fileOk_spec st hf
  have hv := validateInputs_eq st f hp he
  have ht : ¬ jsTrim st.columns = "" := fun h =>
    hc (parseColumnList_nil_of_trim_nil st.columns ((jsTrim_eq_empty_iff _).1 h))
  refine ⟨?_, ?_, ?_, ?_⟩
  · intro hs hnan
    have hcond : st.samplePages ≠ "" ∧ (jsIsNaN st.samplePages || parseIntNonpositive st.samplePages) = true := by
      exact ⟨hs, by rw [hnan]; rfl⟩
    have hverr : validateInputs st = .error "Sample pages must be a positive number" := by
      rw [hv, if_neg ht, if_neg hc, if_pos hcond]
    exact ⟨hverr, buildRequest_error st _ hverr⟩
  · intro n hn hle
    have hs : st.samplePages ≠ "" := by
      intro h0
      rw [h0, jsParseInt_empty] at hn
      cases hn
    have hnp : parseIntNonpositive st.samplePages = true := by
      unfold parseIntNonpositive
      rw [hn]
      simpa using hle
    have hcond : st.samplePages ≠ "" ∧ (jsIsNaN st.samplePages || parseIntNonpositive st.samplePages) = true := by
      exact ⟨hs, by rw [hnp, Bool.or_true]⟩
    have hverr : validateInputs st = .error "Sample pages must be a positive number" := by
      rw [hv, if_neg ht, if_neg hc, if_pos hcond]
    exact ⟨hverr, buildRequest_error st _ hverr⟩
  · intro n hn hpos hnan
    have hs : st.samplePages ≠ "" := by
      intro h0
      rw [h0, jsParseInt_empty] at hn
      cases hn
    have hnp : parseIntNonpositive st.samplePages = false := by
      unfold parseIntNonpositive
      rw [hn]
      simpa using hpos
    have hcond : ¬ (st.samplePages ≠ "" ∧ (jsIsNaN st.samplePages || parseIntNonpositive st.samplePages) = true) := by
      rw [hnan, hnp]
      simp
    have hvok : validateInputs st = .ok () := by
      rw [hv, if_neg ht, if_neg hc, if_neg hcond]
    have hreq := buildRequest_ok st f hvok hp
    have hpp : parseIntPositive st.samplePages = true := by
      unfold parseIntPositive
      rw [hn]
      simpa using hpos
    refine ⟨hvok, ⟨_, hreq, ?_⟩⟩
    dsimp only
    rw [if_pos ⟨hs, hnan, hpp⟩, hn]
  · intro h0
    have hcond : ¬ (st.samplePages ≠ "" ∧ (jsIsNaN st.samplePages || parseIntNonpositive st.samplePages) = true) := by
      rw [h0]
      simp
    have hvok : validateInputs st = .ok () := by
      rw [hv, if_neg ht, if_neg hc, if_neg hcond]
    have hreq := buildRequest_ok st f hvok hp
    refine ⟨hvok, ⟨_, hreq, ?_⟩⟩
    dsimp only
    rw [if_neg (by rw [h0]; simp)]

/-- C5 witness: a state with file `a.pdf`, columns `a`, sample pages `"3"`
passes validation and the request carries sample limit 3. -/
theorem C5_sample_pages_gate_witness :
    validateInputs (mkState (some ⟨"a.pdf"⟩) "a" "" "3") = .ok () ∧
    ∃ req, buildRequest (mkState (some ⟨"a.pdf"⟩) "a" "" "3") = some req ∧
      req.sample_pages = some 3 :=
  (C5_sample_pages_gate (mkState (some ⟨"a.pdf"⟩) "a" "" "3") (by decide)
    (by decide)).2.2.1 3 (by decide) (by decide) (by decide)

/-- C6: on a successful submission the stored blob is the response blob and
the preview data is obtained by parsing those same bytes (no separate
preview payload); the preview table shows the first 20 rows of the parsed
first sheet, i.e. the header and the first 19 data rows. -/
theorem C6_preview_same_bytes (parse : Blob → Option (List (List String)))
    (st : AppState) (blob : Blob) (json : List (List String))
    (hv : validateInputs st = .ok ()) (hp : parse blob = some json) :
    (handleSubmit parse st (.ok blob)).extractedBlob = some blob ∧
    (handleSubmit parse st (.ok blob)).previewData = json ∧
    previewTableRows (handleSubmit parse st (.ok blob)).previewData = json.take 20 ∧
    previewBodyRows (handleSubmit parse st (.ok blob)).previewData = (json.drop 1).take 19 := by
  have hs : handleSubmit parse st (.ok blob) =
      { st with isLoading := false, downloadLink := "blob:objecturl", previewData := json, extractedBlob := some blob, extractionStats := some (computeStats json), error := "" } := by
    unfold handleSubmit
    rw [hv]
    dsimp only
    rw [hp]
  rw [hs]
  refine ⟨rfl, rfl, previewTableRows_eq_take json, ?_⟩
  unfold previewBodyRows
  rw [previewTableRows_eq_take json]
  simp [List.drop_take]

/-- C6 witness: a concrete parser and three-row sheet; the preview equals
the parsed rows of the stored blob. -/
theorem C6_preview_same_bytes_witness :
    (handleSubmit (fun _ => some [["h"], ["r1"], ["r2"]]) (mkState (some ⟨"a.pdf"⟩) "a" "" "") (.ok [7])).extractedBlob = some [7] ∧
    (handleSubmit (fun _ => some [["h"], ["r1"], ["r2"]]) (mkState (some ⟨"a.pdf"⟩) "a" "" "") (.ok [7])).previewData = [["h"], ["r1"], ["r2"]] ∧
    previewTableRows (handleSubmit (fun _ => some [["h"], ["r1"], ["r2"]]) (mkState (some ⟨"a.pdf"⟩) "a" "" "") (.ok [7])).previewData = [["h"], ["r1"], ["r2"]].take 20 ∧
    previewBodyRows (handleSubmit (fun _ => some [["h"], ["r1"], ["r2"]]) (mkState (some ⟨"a.pdf"⟩) "a" "" "") (.ok [7])).previewData = ([["h"], ["r1"], ["r2"]].drop 1).take 19 :=
  C6_preview_same_bytes (fun _ => some [["h"], ["r1"], ["r2"]])
    (mkState (some ⟨"a.pdf"⟩) "a" "" "") [7] [["h"], ["r1"], ["r2"]] (by decide) rfl

/-- C7: once a validated submission settles, the state shows either a
stored artifact blob with its statistics and no error message, or a
non-empty classified error message and no statistics — never both. -/
theorem C7_exclusive_outcome (parse : Blob → Option (List (List String)))
    (st : AppState) (resp : ServerResponse) (hv : validateInputs st = .ok ()) :
    ((handleSubmit parse st resp).error = "" ∧
      (∃ b, (handleSubmit parse st resp).extractedBlob = some b) ∧
      (∃ stats, (handleSubmit parse st resp).extractionStats = some stats)) ∨
    ((handleSubmit parse st resp).error ≠ "" ∧
      (handleSubmit parse st resp).extractionStats = none) := by
  unfold handleSubmit
  rw [hv]
  cases resp with
  | failure f =>
    right
    exact ⟨classifyError_ne_empty f, rfl⟩
  | ok blob =>
    dsimp only
    cases hp : parse blob with
    | none =>
      right
      dsimp only
      exact ⟨by decide, rfl⟩
    | some json =>
      left
      exact ⟨rfl, ⟨blob, rfl⟩, ⟨computeStats json, rfl⟩⟩

/-- C7 witness: a server failure on a validated state yields the
error-and-no-statistics outcome. -/
theorem C7_exclusive_outcome_witness :
    ((handleSubmit (fun _ => none) (mkState (some ⟨"a.pdf"⟩) "a" "" "") (.failure .noResponse)).error = "" ∧
      (∃ b, (handleSubmit (fun _ => none) (mkState (some ⟨"a.pdf"⟩) "a" "" "") (.failure .noResponse)).extractedBlob = some b) ∧
      (∃ stats, (handleSubmit (fun _ => none) (mkState (some ⟨"a.pdf"⟩) "a" "" "") (.failure .noResponse)).extractionStats = some stats)) ∨
    ((handleSubmit (fun _ => none) (mkState (some ⟨"a.pdf"⟩) "a" "" "") (.failure .noResponse)).error ≠ "" ∧
      (handleSubmit (fun _ => none) (mkState (some ⟨"a.pdf"⟩) "a" "" "") (.failure .noResponse)).extractionStats = none) :=
  C7_exclusive_outcome (fun _ => none) (mkState (some ⟨"a.pdf"⟩) "a" "" "")
    (.failure .noResponse) (by decide)

/-- C8: a job request is issued only when a file is selected whose
lowercased name ends with `".pdf"`; in every other selection state no
request is issued and `validateInputs` reports a file error. -/
theorem C8_pdf_gate (st : AppState) :
    ((∃ req, buildRequest st = some req) → fileOk st = true) ∧
    (fileOk st = false →
      buildRequest st = none ∧
      (validateInputs st = .error "Please select a PDF file" ∨
       validateInputs st = .error "Please select a valid PDF file")) := by
  cases hp : st.pdfFile with
  | none =>
    have hv : validateInputs st = .error "Please select a PDF file" := by
      unfold validateInputs
      rw [hp]
    constructor
    · rintro ⟨req, hreq⟩
      rw [buildRequest_error st _ hv] at hreq
      cases hreq
    · intro _
      exact ⟨buildRequest_error st _ hv, Or.inl hv⟩
  | some f =>
    cases hend : jsEndsWith (jsToLowerCase f.name) ".pdf" with
    | true =>
      have hfo : fileOk st = true := by
        unfold fileOk
        rw [hp]
        exact hend
      constructor
      · intro _
        exact hfo
      · intro hfalse
        rw [hfo] at hfalse
        cases hfalse
    | false =>
      have hv : validateInputs st = .error "Please select a valid PDF file" := by
        unfold validateInputs
        rw [hp]
        dsimp only
        rw [hend]
        simp
      constructor
      · rintro ⟨req, hreq⟩
        rw [buildRequest_error st _ hv] at hreq
        cases hreq
      · intro _
        exact ⟨buildRequest_error st _ hv, Or.inr hv⟩

/-- C8 witness: with no file selected, no request is issued and the file
error is reported. -/
theorem C8_pdf_gate_witness :
    buildRequest (mkState none "a" "" "") = none ∧
    (validateInputs (mkState none "a" "" "") = .error "Please select a PDF file" ∨
     validateInputs (mkState none "a" "" "") = .error "Please select a valid PDF file") :=
  (C8_pdf_gate (mkState none "a" "" "")).2 (by decide)
